import Mathlib

/-!
Verification of `src/utils/port_utils.py`.

Strings are modelled as `List Char` (Python `str`); the env file on disk is
modelled by its sequence of lines, `Option (List (List Char))`, where `none`
means the file does not exist.  Socket operations and the interactive
terminal are modelled by oracles passed in explicitly.
-/

namespace PortUtils

/-- The whitespace characters removed by Python's `str.strip()` (ASCII set). -/
def isSpace (c : Char) : Bool :=
  c = ' ' || c = '\t' || c = '\n' || c = '\r' || c = '\x0b' || c = '\x0c'

/-- Python `str.strip()`: drop leading and trailing whitespace. -/
def pyStrip (l : List Char) : List Char :=
  ((l.dropWhile isSpace).reverse.dropWhile isSpace).reverse

/-- Python `str.lower()` (ASCII). -/
def pyLower (l : List Char) : List Char := l.map Char.toLower

/-- Python `str.startswith("#")`. -/
def startsWithHash : List Char → Bool
  | [] => false
  | c :: _ => c == '#'

/-- Python `s.split("=", 1)[0]`: the prefix of `s` before the first `'='`
(assuming `'='` occurs in `s`; otherwise the whole of `s`). -/
def keyOf (s : List Char) : List Char := s.takeWhile (fun c => c != '=')

/-- The decimal digit characters used when rendering a number. -/
def digitChar : Nat → Char
  | 0 => '0'
  | 1 => '1'
  | 2 => '2'
  | 3 => '3'
  | 4 => '4'
  | 5 => '5'
  | 6 => '6'
  | 7 => '7'
  | 8 => '8'
  | 9 => '9'
  | _ => '*'

/-- Fuelled accumulator loop for decimal rendering of a natural number. -/
def natToCharsGo : Nat → Nat → List Char → List Char
  | 0, _, acc => acc
  | fuel + 1, n, acc =>
    if n = 0 then acc else natToCharsGo fuel (n / 10) (digitChar (n % 10) :: acc)

/-- Decimal rendering of a natural number, modelling Python `f"{port}"`. -/
def natToChars (n : Nat) : List Char :=
  if n = 0 then ['0'] else natToCharsGo n n []

/-- The assignment text `f"PORT={port}"` built by `update_env_port`. -/
def portAssignment (port : Nat) : List Char := "PORT=".data ++ natToChars port

/-- Python `"\n".join(lines)`. -/
def joinNl : List (List Char) → List Char
  | [] => []
  | [l] => l
  | l :: l' :: ls => l ++ '\n' :: joinNl (l' :: ls)

/-- The exact text written by `update_env_port`: `"\n".join(lines) + "\n"`. -/
def renderFile (ls : List (List Char)) : List Char := joinNl ls ++ ['\n']

/-- Accumulator loop for `splitNl`; the accumulator holds the current line
reversed. -/
def splitNlGo : List Char → List Char → List (List Char)
  | [], acc => [acc.reverse]
  | '\n' :: rest, acc =>
    if rest = [] then [acc.reverse] else acc.reverse :: splitNlGo rest []
  | c :: rest, acc => splitNlGo rest (c :: acc)

/-- Python `str.splitlines()` restricted to newline-separated content: split
at each `'\n'`, with no trailing empty line when the text ends in `'\n'`.
This is how `update_env_port` turns file content into the line list. -/
def splitNl (l : List Char) : List (List Char) :=
  if l = [] then [] else splitNlGo l []

/-- A line that `update_env_port` considers a candidate entry: after stripping
it is non-empty, not a comment, and contains `'='`. -/
def isCandidate (l : List Char) : Bool :=
  !(pyStrip l).isEmpty && !startsWithHash (pyStrip l) && (pyStrip l).contains '='

/-- A candidate entry line whose key (before the first `'='`, stripped)
is `PORT`. -/
def isPortLine (l : List Char) : Bool :=
  isCandidate l && (pyStrip (keyOf (pyStrip l)) == "PORT".data)

/-- The scanning loop of `update_env_port` over the file's lines:
`none` means no `PORT` entry was found (the append path);
`some none` means the first `PORT` entry already equals the assignment
(return `False` without writing); `some (some ls)` means the first `PORT`
entry was replaced by the assignment, yielding the new line list `ls`. -/
def findUpdate (assignment : List Char) : List (List Char) → Option (Option (List (List Char)))
  | [] => none
  | l :: ls =>
    if pyStrip l = [] ∨ startsWithHash (pyStrip l) = true ∨ (pyStrip l).contains '=' = false then
      (findUpdate assignment ls).map (fun r => r.map (fun tail => l :: tail))
    else if pyStrip (keyOf (pyStrip l)) = "PORT".data then
      if pyStrip l = assignment then some none
      else some (some (assignment :: ls))
    else
      (findUpdate assignment ls).map (fun r => r.map (fun tail => l :: tail))

/-- Filesystem state seen by `update_env_port`: the env file's lines
(`none` when the file does not exist) and whether the parent directory
of the env file exists. -/
structure FsState where
  file : Option (List (List Char))
  parentDir : Bool
  deriving DecidableEq

/-- Shallow embedding of `update_env_port(port, env_path)`: `mkdir -p` of the
parent directory always happens first, then the file's lines are scanned;
returns the `bool` result together with the new filesystem state. -/
def updateEnvPort (port : Nat) (fs : FsState) : Bool × FsState :=
  let lines := fs.file.getD []
  let assignment := portAssignment port
  match findUpdate assignment lines with
  | some none => (false, ⟨fs.file, true⟩)
  | some (some ls) => (true, ⟨some ls, true⟩)
  | none => (true, ⟨some (lines ++ [assignment]), true⟩)

/-- Shallow embedding of `_iter_hosts_for_port_check` (`host = none`
models Python `None`). -/
def iterHosts : Option (List Char) → List (List Char)
  | none => ["127.0.0.1".data]
  | some h =>
    if h = "0.0.0.0".data ∨ h = [] then ["127.0.0.1".data]
    else if h = "::".data ∨ h = "::0".data then ["::1".data]
    else [h]

/-- The scanning loop of `is_port_in_use` over the candidate hostnames.
`resolve c` is the oracle for `socket.getaddrinfo(c, port, SOCK_STREAM)`
(`none` models a raised `gaierror`); `connectOk a` is the oracle for
`connect_ex(a) == 0` on one resolved socket address.  Returns the probe
result together with the list of candidates for which a resolution-failure
warning was logged, in emission order. -/
def probeGo {A : Type} (resolve : List Char → Option (List A)) (connectOk : A → Bool) :
    List (List Char) → Bool × List (List Char)
  | [] => (false, [])
  | c :: cs =>
    match resolve c with
    | none =>
      let r := probeGo resolve connectOk cs
      (r.1, c :: r.2)
    | some addrs =>
      if addrs.any connectOk then (true, [])
      else probeGo resolve connectOk cs

/-- Shallow embedding of `is_port_in_use(host, port)` (the `port` argument is
folded into the `resolve` oracle by the caller). -/
def isPortInUse {A : Type} (resolve : List Char → Option (List A)) (connectOk : A → Bool)
    (host : Option (List Char)) : Bool × List (List Char) :=
  probeGo resolve connectOk (iterHosts host)

/-- Observable events of `prompt_for_available_port`, in emission order:
log lines and stderr prompt writes. -/
inductive NegoEv
  | warnOccupied (port : Nat)
  | errNotTty
  | promptAsk (port : Nat)
  | errNoInput
  | errDecline
  | askAgain
  | warnSubst (fromPort toPort : Nat)
  deriving DecidableEq

/-- Outcome of `prompt_for_available_port`: a returned port, or process
termination via `SystemExit code`. -/
inductive NegoOut
  | exitFail (code : Nat)
  | ok (port : Nat)
  deriving DecidableEq

/-- Result of `prompt_for_available_port`: the outcome, the unread remainder
of the stdin script, and the events emitted (in order). -/
structure NegoRes where
  outcome : NegoOut
  rest : List (List Char)
  events : List NegoEv
  deriving DecidableEq

/-- Prepend an event to a negotiation result. -/
def consEv (e : NegoEv) (r : NegoRes) : NegoRes := ⟨r.outcome, r.rest, e :: r.events⟩

/-- Shallow embedding of `prompt_for_available_port(host, initial_port)`.
`inUse port` is the oracle for `is_port_in_use(host, port)` and `tty` for
`sys.stdin.isatty()`; stdin is a finite script of lines, reading past its
end modelling `EOFError`.  `phase = false` is the outer availability-check
loop, `phase = true` the inner prompt loop (re-entered on a malformed
answer without re-checking availability). -/
def nego (inUse : Nat → Bool) (tty : Bool) (initial : Nat) :
    Bool → Nat → List (List Char) → NegoRes
  | false, port, inputs =>
    if inUse port = false then
      ⟨.ok port, inputs, if port = initial then [] else [.warnSubst initial port]⟩
    else if tty = false then
      ⟨.exitFail 1, inputs, [.warnOccupied port, .errNotTty]⟩
    else
      consEv (.warnOccupied port) (nego inUse tty initial true port inputs)
  | true, port, [] => ⟨.exitFail 1, [], [.promptAsk port, .errNoInput]⟩
  | true, port, c :: rest =>
    if pyLower (pyStrip c) = "y".data then
      consEv (.promptAsk port) (nego inUse tty initial false (port + 1) rest)
    else if pyLower (pyStrip c) = "n".data then
      ⟨.exitFail 1, rest, [.promptAsk port, .errDecline]⟩
    else
      consEv (.promptAsk port) (consEv .askAgain (nego inUse tty initial true port rest))
  termination_by phase _p inputs => 2 * inputs.length + (if phase then 0 else 1)
  decreasing_by all_goals simp_wf <;> omega

/-- Result of one run of `main()`: `exitCode = some c` models termination by
`SystemExit c` (nothing printed to stdout in that case), `none` a normal
return; `stdout` is the list of lines printed to standard output. -/
structure MainRes where
  exitCode : Option Nat
  fs : FsState
  stdout : List (List Char)
  deriving DecidableEq

/-- Shallow embedding of `main()`: negotiate a port, update the env file,
then print host, port and the change flag, one per line. -/
def mainModel (inUse : Nat → Bool) (tty : Bool) (host : List Char) (initialPort : Nat)
    (inputs : List (List Char)) (fs : FsState) : MainRes :=
  match (nego inUse tty initialPort false initialPort inputs).outcome with
  | .exitFail c => ⟨some c, fs, []⟩
  | .ok port =>
    let r := updateEnvPort port fs
    ⟨none, r.2, [host, natToChars port, if r.1 then ['1'] else ['0']]⟩

/-- Number of `"y"` answers (after strip/lowercase) in a stdin prefix. -/
def yesCount (l : List (List Char)) : Nat :=
  l.countP (fun c => pyLower (pyStrip c) == "y".data)

/-- The first candidate entry line with key `PORT`, if any. -/
def firstPortLine (ls : List (List Char)) : Option (List Char) := ls.find? isPortLine

/-- Number of candidate entry lines with key `PORT`. -/
def countPortLines (ls : List (List Char)) : Nat := ls.countP isPortLine

/-- The non-`PORT` lines, in order. -/
def nonPortLines (ls : List (List Char)) : List (List Char) :=
  ls.filter (fun l => !isPortLine l)

section NegoLemmas

lemma consEv_outcome (e : NegoEv) (r : NegoRes) : (consEv e r).outcome = r.outcome := rfl

lemma consEv_rest (e : NegoEv) (r : NegoRes) : (consEv e r).rest = r.rest := rfl

lemma nego_false_eq (inUse : Nat → Bool) (tty : Bool) (initial port : Nat)
    (inputs : List (List Char)) :
    nego inUse tty initial false port inputs =
      if inUse port = false then
        ⟨.ok port, inputs, if port = initial then [] else [.warnSubst initial port]⟩
      else if tty = false then
        ⟨.exitFail 1, inputs, [.warnOccupied port, .errNotTty]⟩
      else
        consEv (.warnOccupied port) (nego inUse tty initial true port inputs) := by
  rw [nego]

lemma nego_true_nil_eq (inUse : Nat → Bool) (tty : Bool) (initial port : Nat) :
    nego inUse tty initial true port [] = ⟨.exitFail 1, [], [.promptAsk port, .errNoInput]⟩ := by
  rw [nego]

lemma nego_true_cons_eq (inUse : Nat → Bool) (tty : Bool) (initial port : Nat)
    (c : List Char) (rest : List (List Char)) :
    nego inUse tty initial true port (c :: rest) =
      if pyLower (pyStrip c) = "y".data then
        consEv (.promptAsk port) (nego inUse tty initial false (port + 1) rest)
      else if pyLower (pyStrip c) = "n".data then
        ⟨.exitFail 1, rest, [.promptAsk port, .errDecline]⟩
      else
        consEv (.promptAsk port) (consEv .askAgain (nego inUse tty initial true port rest)) := by
  rw [nego, nego, nego_false_eq]

/-- Every `SystemExit` raised inside `prompt_for_available_port` carries
exit code 1. -/
lemma nego_fail_code (inUse : Nat → Bool) (tty : Bool) (initial : Nat) :
    ∀ phase port inputs c,
      (nego inUse tty initial phase port inputs).outcome = .exitFail c → c = 1 := by
  intro phase port inputs
  induction phase, port, inputs using nego.induct inUse tty initial with
  | case1 port inputs h => intro c hc; rw [nego_false_eq, if_pos h] at hc; simp at hc
  | case2 port inputs h ht =>
    intro c hc
    rw [nego_false_eq, if_neg h, if_pos ht] at hc
    simpa using hc.symm
  | case3 port inputs h ht ih =>
    intro c hc
    rw [nego_false_eq, if_neg h, if_neg ht, consEv_outcome] at hc
    exact ih c hc
  | case4 port =>
    intro c hc
    rw [nego_true_nil_eq] at hc
    simpa using hc.symm
  | case5 port c rest hy ih =>
    intro c' hc
    rw [nego_true_cons_eq, if_pos hy, consEv_outcome] at hc
    exact ih c' hc
  | case6 port c rest hy hn =>
    intro c' hc
    rw [nego_true_cons_eq, if_neg hy, if_pos hn] at hc
    simpa using hc.symm
  | case7 port c rest hy hn ih =>
    intro c' hc
    rw [nego_true_cons_eq, if_neg hy, if_neg hn, consEv_outcome, consEv_outcome] at hc
    exact ih c' hc

/-- When `prompt_for_available_port` returns a port, that port is the starting
port plus the number of accepted (`"y"`) prompts: the candidate advances by
exactly one per accepted prompt and never skips. -/
lemma nego_ok_advance (inUse : Nat → Bool) (tty : Bool) (initial : Nat) :
    ∀ phase port inputs p,
      (nego inUse tty initial phase port inputs).outcome = .ok p →
      ∃ consumed, inputs = consumed ++ (nego inUse tty initial phase port inputs).rest ∧
        p = port + yesCount consumed := by
  intro phase port inputs
  induction phase, port, inputs using nego.induct inUse tty initial with
  | case1 port inputs h =>
    intro p hp
    rw [nego_false_eq, if_pos h] at hp ⊢
    simp at hp
    exact ⟨[], by simp, by simp [yesCount, hp]⟩
  | case2 port inputs h ht =>
    intro p hp
    rw [nego_false_eq, if_neg h, if_pos ht] at hp
    simp at hp
  | case3 port inputs h ht ih =>
    intro p hp
    rw [nego_false_eq, if_neg h, if_neg ht, consEv_outcome] at hp
    rw [nego_false_eq, if_neg h, if_neg ht, consEv_rest]
    exact ih p hp
  | case4 port =>
    intro p hp
    rw [nego_true_nil_eq] at hp
    simp at hp
  | case5 port c rest hy ih =>
    intro p hp
    rw [nego_true_cons_eq, if_pos hy, consEv_outcome] at hp
    rw [nego_true_cons_eq, if_pos hy, consEv_rest]
    obtain ⟨consumed, hsplit, hcount⟩ := ih p hp
    refine ⟨c :: consumed, by simp [← hsplit], ?_⟩
    have hyb : (pyLower (pyStrip c) == "y".data) = true := by simpa using hy
    simp [yesCount, List.countP_cons, hyb] at hcount ⊢
    omega
  | case6 port c rest hy hn =>
    intro p hp
    rw [nego_true_cons_eq, if_neg hy, if_pos hn] at hp
    simp at hp
  | case7 port c rest hy hn ih =>
    intro p hp
    rw [nego_true_cons_eq, if_neg hy, if_neg hn, consEv_outcome, consEv_outcome] at hp
    rw [nego_true_cons_eq, if_neg hy, if_neg hn, consEv_rest, consEv_rest]
    obtain ⟨consumed, hsplit, hcount⟩ := ih p hp
    refine ⟨c :: consumed, by simp [← hsplit], ?_⟩
    have hyb : (pyLower (pyStrip c) == "y".data) = false := by simpa using hy
    simp [yesCount, List.countP_cons, hyb] at hcount ⊢
    omega

lemma stripLower_y : pyLower (pyStrip ['y']) = ['y'] := by decide

end NegoLemmas

section FileLemmas

lemma isPortLine_false_of_notCandidate {l : List Char}
    (h : pyStrip l = [] ∨ startsWithHash (pyStrip l) = true ∨ (pyStrip l).contains '=' = false) :
    isPortLine l = false := by
  have hc : isCandidate l = false := by
    rcases h with h | h | h
    · unfold isCandidate; rw [h]; rfl
    · unfold isCandidate; rw [h]; simp
    · unfold isCandidate; rw [h]; simp
  simp [isPortLine, hc]

lemma isCandidate_true_of_conds {l : List Char}
    (h : ¬(pyStrip l = [] ∨ startsWithHash (pyStrip l) = true ∨
      (pyStrip l).contains '=' = false)) :
    isCandidate l = true := by
  push_neg at h
  obtain ⟨h1, h2, h3⟩ := h
  have e1 : (pyStrip l).isEmpty = false := by simp [List.isEmpty_iff, h1]
  have e2 : startsWithHash (pyStrip l) = false := by simpa using h2
  have e3 : (pyStrip l).contains '=' = true := by simpa using h3
  unfold isCandidate
  rw [e1, e2, e3]
  rfl

/-- One unfolding of the scan, with the three source conditions bundled into
`isPortLine`. -/
lemma findUpdate_cons (a l : List Char) (ls : List (List Char)) :
    findUpdate a (l :: ls) =
      if isPortLine l = true then
        (if pyStrip l = a then some none else some (some (a :: ls)))
      else (findUpdate a ls).map (fun r => r.map (fun tail => l :: tail)) := by
  rw [findUpdate]
  by_cases h1 : pyStrip l = [] ∨ startsWithHash (pyStrip l) = true ∨
      (pyStrip l).contains '=' = false
  · rw [if_pos h1]
    simp [isPortLine_false_of_notCandidate h1]
  · rw [if_neg h1]
    have hc := isCandidate_true_of_conds h1
    by_cases h2 : pyStrip (keyOf (pyStrip l)) = "PORT".data
    · have hp : isPortLine l = true := by simp [isPortLine, hc, h2]
      rw [if_pos h2, if_pos hp]
    · have hp : isPortLine l = false := by simp [isPortLine, h2]
      rw [if_neg h2]
      simp [hp]

/-- The scan reports "no `PORT` entry" exactly when no line is a `PORT`
candidate. -/
lemma findUpdate_eq_none_iff (a : List Char) :
    ∀ ls, findUpdate a ls = none ↔ ∀ l ∈ ls, isPortLine l = false := by
  intro ls
  induction ls with
  | nil => simp [findUpdate]
  | cons l ls ih =>
    rw [findUpdate_cons]
    by_cases h : isPortLine l = true
    · rw [if_pos h]
      constructor
      · intro hx; split_ifs at hx
      · intro hx
        have := hx l (by simp)
        rw [h] at this
        simp at this
    · have h' : isPortLine l = false := by simpa using h
      rw [if_neg h]
      simp [h', ih, Option.map_eq_none']

/-- The scan returns `False` (no write) exactly when the first `PORT`
candidate line strips to the assignment. -/
lemma findUpdate_eq_someNone_iff (a : List Char) :
    ∀ ls, findUpdate a ls = some none ↔
      ∃ l, firstPortLine ls = some l ∧ pyStrip l = a := by
  intro ls
  induction ls with
  | nil => simp [findUpdate, firstPortLine]
  | cons l ls ih =>
    rw [findUpdate_cons]
    by_cases h : isPortLine l = true
    · rw [if_pos h]
      rw [firstPortLine, List.find?_cons_of_pos _ h]
      constructor
      · intro hx
        split_ifs at hx with hs
        · exact ⟨l, rfl, hs⟩
        · simp at hx
      · rintro ⟨l', hl', hs⟩
        simp at hl'
        rw [if_pos (hl' ▸ hs)]
    · have h' : isPortLine l = false := by simpa using h
      rw [if_neg h]
      rw [firstPortLine, List.find?_cons_of_neg _ (by simp [h'])]
      rw [← firstPortLine]
      constructor
      · intro hx
        rw [Option.map_eq_some'] at hx
        obtain ⟨r, hr, hmap⟩ := hx
        have : r = none := by
          cases r with
          | none => rfl
          | some t => simp at hmap
        rw [this] at hr
        exact ih.mp hr
      · intro hx
        rw [ih.mpr hx]
        rfl

/-- Shape of a successful replacement: the first `PORT` candidate line is
replaced by the assignment and everything else is kept in place. -/
lemma findUpdate_eq_someSome (a : List Char) :
    ∀ ls ls', findUpdate a ls = some (some ls') →
      ∃ pre l post, ls = pre ++ l :: post ∧ ls' = pre ++ a :: post ∧
        (∀ x ∈ pre, isPortLine x = false) ∧ isPortLine l = true ∧ pyStrip l ≠ a := by
  intro ls
  induction ls with
  | nil => intro ls' h; simp [findUpdate] at h
  | cons l ls ih =>
    intro ls' h
    rw [findUpdate_cons] at h
    by_cases hp : isPortLine l = true
    · rw [if_pos hp] at h
      split_ifs at h with hs
      · simp at h
      · simp at h
        exact ⟨[], l, ls, by simp, by simp [h.symm], by simp, hp, hs⟩
    · have hp' : isPortLine l = false := by simpa using hp
      rw [if_neg hp] at h
      rw [Option.map_eq_some'] at h
      obtain ⟨r, hr, hmap⟩ := h
      cases r with
      | none => simp at hmap
      | some t =>
        simp at hmap
        obtain ⟨pre, l₀, post, hls, ht, hpre, hl₀, hs⟩ := ih t hr
        refine ⟨l :: pre, l₀, post, by simp [hls], by simp [← hmap, ht], ?_, hl₀, hs⟩
        intro x hx
        rcases List.mem_cons.mp hx with hx | hx
        · rw [hx]; exact hp'
        · exact hpre x hx

lemma dropWhile_eq_self_of_all {p : Char → Bool} {l : List Char}
    (h : ∀ c ∈ l, p c = false) : l.dropWhile p = l := by
  cases l with
  | nil => rfl
  | cons c cs => simp [List.dropWhile_cons, h c (by simp)]

lemma pyStrip_eq_self_of_all {l : List Char} (h : ∀ c ∈ l, isSpace c = false) :
    pyStrip l = l := by
  unfold pyStrip
  rw [dropWhile_eq_self_of_all h]
  rw [dropWhile_eq_self_of_all (fun c hc => h c (List.mem_reverse.mp hc))]
  exact List.reverse_reverse l

lemma digitChar_isSpace (m : Nat) : isSpace (digitChar m) = false := by
  rcases m with _|_|_|_|_|_|_|_|_|_|m <;> rfl

lemma natToCharsGo_mem :
    ∀ fuel n acc (c : Char), c ∈ natToCharsGo fuel n acc → c ∈ acc ∨ ∃ m, c = digitChar m := by
  intro fuel
  induction fuel with
  | zero => intro n acc c hc; exact Or.inl hc
  | succ fuel ih =>
    intro n acc c hc
    rw [natToCharsGo] at hc
    split_ifs at hc with h
    · exact Or.inl hc
    · rcases ih (n / 10) (digitChar (n % 10) :: acc) c hc with hin | hd
      · rcases List.mem_cons.mp hin with h0 | h0
        · exact Or.inr ⟨n % 10, h0⟩
        · exact Or.inl h0
      · exact Or.inr hd

lemma natToChars_noSpace (n : Nat) : ∀ c ∈ natToChars n, isSpace c = false := by
  intro c hc
  unfold natToChars at hc
  split_ifs at hc with h
  · simp at hc; rw [hc]; decide
  · rcases natToCharsGo_mem n n [] c hc with h0 | ⟨m, hm⟩
    · simp at h0
    · rw [hm]; exact digitChar_isSpace m

lemma portAssignment_noSpace (p : Nat) : ∀ c ∈ portAssignment p, isSpace c = false := by
  intro c hc
  unfold portAssignment at hc
  rcases List.mem_append.mp hc with h | h
  · have hd : "PORT=".data = ['P', 'O', 'R', 'T', '='] := rfl
    rw [hd] at h
    fin_cases h <;> decide
  · exact natToChars_noSpace p c h

lemma pyStrip_portAssignment (p : Nat) : pyStrip (portAssignment p) = portAssignment p :=
  pyStrip_eq_self_of_all (portAssignment_noSpace p)

lemma keyOf_portAssignment (p : Nat) : keyOf (portAssignment p) = "PORT".data := rfl

lemma isPortLine_portAssignment (p : Nat) : isPortLine (portAssignment p) = true := by
  unfold isPortLine isCandidate
  rw [pyStrip_portAssignment, keyOf_portAssignment]
  have h1 : (portAssignment p).isEmpty = false := rfl
  have h2 : startsWithHash (portAssignment p) = false := rfl
  have h3 : (portAssignment p).contains '=' = true := rfl
  rw [h1, h2, h3]
  decide

lemma find?_append_first {α : Type} (p : α → Bool) :
    ∀ pre (l : α) post, (∀ x ∈ pre, p x = false) → p l = true →
      (pre ++ l :: post).find? p = some l := by
  intro pre
  induction pre with
  | nil => intro l post _ hl; simpa using List.find?_cons_of_pos _ hl
  | cons x pre ih =>
    intro l post hpre hl
    rw [List.cons_append, List.find?_cons_of_neg _ (by simp [hpre x (by simp)])]
    exact ih l post (fun y hy => hpre y (by simp [hy])) hl

/-- Full characterisation of one `update_env_port` call: the parent directory
always exists afterwards; on the `False` path the file is untouched and its
first `PORT` line strips to the assignment; on the `True` path the first
`PORT` line of the result is exactly the assignment, the number of `PORT`
lines is the maximum of 1 and the starting count, and the non-`PORT` lines
are preserved in order. -/
lemma updateEnvPort_spec (port : Nat) (fs : FsState) :
    (updateEnvPort port fs).2.parentDir = true ∧
    ((updateEnvPort port fs).1 = false →
      (updateEnvPort port fs).2.file = fs.file ∧
      ∃ l, firstPortLine (fs.file.getD []) = some l ∧ pyStrip l = portAssignment port) ∧
    ((updateEnvPort port fs).1 = true →
      ∃ ls', (updateEnvPort port fs).2.file = some ls' ∧
        firstPortLine ls' = some (portAssignment port) ∧
        countPortLines ls' = max 1 (countPortLines (fs.file.getD [])) ∧
        nonPortLines ls' = nonPortLines (fs.file.getD [])) := by
  have hpa := isPortLine_portAssignment port
  rcases hf : findUpdate (portAssignment port) (fs.file.getD []) with _ | r
  · -- no PORT entry: append path
    have hall := (findUpdate_eq_none_iff _ _).mp hf
    simp only [updateEnvPort, hf]
    refine ⟨by trivial, by simp, fun _ => ⟨fs.file.getD [] ++ [portAssignment port], by simp, ?_, ?_, ?_⟩⟩
    · exact find?_append_first _ _ _ [] hall hpa
    · have h0 : countPortLines (fs.file.getD []) = 0 := by
        rw [countPortLines, List.countP_eq_zero]
        intro x hx
        simp [hall x hx]
      rw [countPortLines, List.countP_append, ← countPortLines, h0]
      simp [List.countP_cons, hpa]
    · rw [nonPortLines, List.filter_append, ← nonPortLines]
      simp [hpa]
  · cases r with
    | none =>
      -- first PORT line already equals the assignment: the False path
      simp only [updateEnvPort, hf]
      refine ⟨by trivial, fun _ => ⟨by simp, (findUpdate_eq_someNone_iff _ _).mp hf⟩, by simp⟩
    | some ls' =>
      -- replacement path
      obtain ⟨pre, l, post, hls, hls', hpre, hl, _⟩ := findUpdate_eq_someSome _ _ _ hf
      simp only [updateEnvPort, hf]
      refine ⟨by trivial, by simp, fun _ => ⟨ls', by simp, ?_, ?_, ?_⟩⟩
      · rw [hls']
        exact find?_append_first _ _ _ _ hpre hpa
      · have hpre0 : pre.countP isPortLine = 0 := by
          rw [List.countP_eq_zero]
          intro x hx
          simp [hpre x hx]
        rw [hls, hls', countPortLines, countPortLines, List.countP_append, List.countP_append,
          hpre0, List.countP_cons_of_pos _ _ hpa, List.countP_cons_of_pos _ _ hl]
        omega
      · rw [hls, hls', nonPortLines, nonPortLines, List.filter_append, List.filter_append]
        simp [hpa, hl]

/-- The function `update_env_port` returns `False` exactly when the first `PORT` candidate
line of the existing file strips to the assignment text. -/
lemma updateEnvPort_false_iff (port : Nat) (fs : FsState) :
    (updateEnvPort port fs).1 = false ↔
      ∃ l, firstPortLine (fs.file.getD []) = some l ∧ pyStrip l = portAssignment port := by
  rcases hf : findUpdate (portAssignment port) (fs.file.getD []) with _ | r
  · simp only [updateEnvPort, hf, Bool.true_eq_false, false_iff]
    intro hx
    rw [← findUpdate_eq_someNone_iff] at hx
    rw [hf] at hx
    exact Option.noConfusion hx
  · cases r with
    | none =>
      simp only [updateEnvPort, hf, eq_self_iff_true, true_iff]
      exact (findUpdate_eq_someNone_iff _ _).mp hf
    | some ls' =>
      simp only [updateEnvPort, hf, Bool.true_eq_false, false_iff]
      intro hx
      rw [← findUpdate_eq_someNone_iff] at hx
      rw [hf] at hx
      simp at hx

/-- On the `False` path the filesystem state is the old file with the parent
directory ensured. -/
lemma updateEnvPort_false_state (port : Nat) (fs : FsState)
    (h : (updateEnvPort port fs).1 = false) :
    (updateEnvPort port fs).2 = ⟨fs.file, true⟩ := by
  rcases hf : findUpdate (portAssignment port) (fs.file.getD []) with _ | r
  · simp only [updateEnvPort, hf] at h
    exact absurd h (by simp)
  · cases r with
    | none => simp only [updateEnvPort, hf]
    | some ls' =>
      simp only [updateEnvPort, hf] at h
      exact absurd h (by simp)

end FileLemmas

section ProbeLemmas

/-- When every resolved candidate fails all connection attempts, the probe
scan returns `false` and warns exactly on the unresolved candidates. -/
lemma probeGo_all_fail {A : Type} (resolve : List Char → Option (List A)) (connectOk : A → Bool) :
    ∀ cs, (∀ c ∈ cs, ∀ addrs, resolve c = some addrs → addrs.any connectOk = false) →
      probeGo resolve connectOk cs = (false, cs.filter (fun c => (resolve c).isNone)) := by
  intro cs
  induction cs with
  | nil => intro _; rfl
  | cons c cs ih =>
    intro h
    have hrest : ∀ c' ∈ cs, ∀ addrs, resolve c' = some addrs → addrs.any connectOk = false :=
      fun c' hc' => h c' (by simp [hc'])
    rcases hr : resolve c with _ | addrs
    · simp only [probeGo, hr, ih hrest, List.filter_cons]
      simp [hr]
    · have hfail := h c (by simp) addrs hr
      simp only [probeGo, hr, hfail, List.filter_cons]
      simp [hr, ih hrest]

end ProbeLemmas

/-- C3: for host values `None`, `""` and `"0.0.0.0"` the probe dials the IPv4
loopback `127.0.0.1`; for `"::"` and `"::0"` it dials the IPv6 loopback
`::1`; any other host is dialled verbatim; in every case exactly one
candidate hostname is produced. -/
theorem iter_hosts_resolution :
    (iterHosts none = ["127.0.0.1".data] ∧ iterHosts (some []) = ["127.0.0.1".data] ∧
      iterHosts (some "0.0.0.0".data) = ["127.0.0.1".data]) ∧
    (iterHosts (some "::".data) = ["::1".data] ∧ iterHosts (some "::0".data) = ["::1".data]) ∧
    (∀ h : List Char, h ≠ "0.0.0.0".data → h ≠ [] → h ≠ "::".data → h ≠ "::0".data →
      iterHosts (some h) = [h]) ∧
    (∀ host, (iterHosts host).length = 1) := by
  refine ⟨⟨by decide, by decide, by decide⟩, ⟨by decide, by decide⟩, ?_, ?_⟩
  · intro h h1 h2 h3 h4
    simp only [iterHosts]
    rw [if_neg (by tauto), if_neg (by tauto)]
  · intro host
    rcases host with _ | h
    · rfl
    · simp only [iterHosts]
      split_ifs <;> rfl

/-- Witness for `iter_hosts_resolution`: a non-wildcard host is dialled
verbatim. -/
theorem iter_hosts_resolution_witness : iterHosts (some "myhost".data) = ["myhost".data] :=
  iter_hosts_resolution.2.2.1 "myhost".data (by decide) (by decide) (by decide) (by decide)

/-- C9: when every candidate hostname either fails to resolve or fails every
connection attempt, `is_port_in_use` returns `false` (the port is reported
free) and only logs a resolution warning for each unresolved candidate,
which is skipped; no failure escapes to the caller (the model is a total
function into `Bool`). -/
theorem is_port_in_use_resolution_failures {A : Type} (resolve : List Char → Option (List A))
    (connectOk : A → Bool) (host : Option (List Char))
    (h : ∀ c ∈ iterHosts host, ∀ addrs, resolve c = some addrs → addrs.any connectOk = false) :
    isPortInUse resolve connectOk host =
      (false, (iterHosts host).filter (fun c => (resolve c).isNone)) :=
  probeGo_all_fail resolve connectOk (iterHosts host) h

/-- Witness for `is_port_in_use_resolution_failures`: a hostname that never
resolves yields `false` with one warning. -/
theorem is_port_in_use_resolution_failures_witness :
    isPortInUse (fun _ => (none : Option (List Nat))) (fun _ => true) none =
      (false, ["127.0.0.1".data]) := by
  rw [is_port_in_use_resolution_failures (fun _ => (none : Option (List Nat))) (fun _ => true)
    none (fun c _ addrs hads => Option.noConfusion hads)]
  decide

/-- C6: when the initial port is free, `prompt_for_available_port` returns it
unchanged, consumes no input and emits no prompt, warning or substitution
log. -/
theorem negotiation_free_port (inUse : Nat → Bool) (tty : Bool) (initial : Nat)
    (inputs : List (List Char)) (h : inUse initial = false) :
    nego inUse tty initial false initial inputs = ⟨.ok initial, inputs, []⟩ := by
  rw [nego_false_eq, if_pos h, if_pos rfl]

/-- Witness for `negotiation_free_port`. -/
theorem negotiation_free_port_witness :
    nego (fun _ => false) true 8000 false 8000 ["y".data] = ⟨.ok 8000, ["y".data], []⟩ :=
  negotiation_free_port (fun _ => false) true 8000 ["y".data] rfl

/-- C4: with ports `P` and `P+1` occupied, `P+2` free and scripted input
`"y","y"`, negotiation returns `P+2`; in general a returned port equals the
initial port plus the number of accepted prompts, so the candidate advances
by exactly one per accepted prompt and never skips ports (and there is no
upper-bound check: `P` is arbitrary). -/
theorem negotiation_increment :
    (∀ (inUse : Nat → Bool) (P : Nat),
      inUse P = true → inUse (P + 1) = true → inUse (P + 2) = false →
      (nego inUse true P false P ["y".data, "y".data]).outcome = .ok (P + 2)) ∧
    (∀ (inUse : Nat → Bool) (tty : Bool) (initial : Nat) (inputs : List (List Char)) (p : Nat),
      (nego inUse tty initial false initial inputs).outcome = .ok p →
      ∃ consumed, inputs = consumed ++ (nego inUse tty initial false initial inputs).rest ∧
        p = initial + yesCount consumed) := by
  constructor
  · intro inUse P h0 h1 h2
    have hy : pyLower (pyStrip "y".data) = "y".data := by decide
    rw [nego_false_eq, if_neg (by simp [h0]), if_neg (by simp), consEv_outcome,
      nego_true_cons_eq, if_pos hy, consEv_outcome,
      nego_false_eq, if_neg (by simp [h1]), if_neg (by simp), consEv_outcome,
      nego_true_cons_eq, if_pos hy, consEv_outcome,
      nego_false_eq, if_pos h2]
  · exact fun inUse tty initial inputs p => nego_ok_advance inUse tty initial false initial inputs p

/-- Witness for `negotiation_increment`: 8000 and 8001 occupied, 8002 free,
input `"y","y"`, result 8002. -/
theorem negotiation_increment_witness :
    (nego (fun p => p == 8000 || p == 8001) true 8000 false 8000 ["y".data, "y".data]).outcome =
      .ok 8002 :=
  negotiation_increment.1 (fun p => p == 8000 || p == 8001) 8000 (by decide) (by decide)
    (by decide)

/-- C2: whenever negotiation aborts (decline, no interactive input while the
port is occupied, or failure to read input), `main` terminates with the
non-zero exit status carried by the `SystemExit`, the env file is neither
created nor modified, and nothing is printed to stdout; conversely stdout
is non-empty only when negotiation returned a port, and then it is exactly
the three-line contract. -/
theorem main_failure_contract (inUse : Nat → Bool) (tty : Bool) (host : List Char)
    (initialPort : Nat) (inputs : List (List Char)) (fs : FsState) :
    (∀ c, (nego inUse tty initialPort false initialPort inputs).outcome = .exitFail c →
      mainModel inUse tty host initialPort inputs fs = ⟨some c, fs, []⟩ ∧ c ≠ 0) ∧
    ((mainModel inUse tty host initialPort inputs fs).stdout ≠ [] →
      (∃ p, (nego inUse tty initialPort false initialPort inputs).outcome = .ok p) ∧
      (mainModel inUse tty host initialPort inputs fs).stdout.length = 3) := by
  constructor
  · intro c hc
    have h1 : c = 1 := nego_fail_code inUse tty initialPort false initialPort inputs c hc
    refine ⟨?_, by omega⟩
    simp only [mainModel, hc]
  · intro hne
    rcases ho : (nego inUse tty initialPort false initialPort inputs).outcome with c | p
    · exact absurd (by simp only [mainModel, ho]) hne
    · exact ⟨⟨p, rfl⟩, by simp only [mainModel, ho]; rfl⟩

/-- Witness for `main_failure_contract`: occupied port, no tty: exit status 1,
file untouched, empty stdout. -/
theorem main_failure_contract_witness :
    mainModel (fun _ => true) false "h".data 9 [] ⟨none, false⟩ = ⟨some 1, ⟨none, false⟩, []⟩ ∧
    (1 : Nat) ≠ 0 := by
  have ho : (nego (fun _ => true) false 9 false 9 []).outcome = .exitFail 1 := by
    rw [nego_false_eq, if_neg (by simp), if_pos rfl]
  exact (main_failure_contract (fun _ => true) false "h".data 9 [] ⟨none, false⟩).1 1 ho

/-- C1 (amended): after a call to `update_env_port` that performs no write the
file is unchanged; after a call that writes, the first `PORT` line is
exactly the new assignment, the number of `PORT` lines is the maximum of 1
and the starting count (duplicates beyond the first are preserved), all
non-`PORT` lines keep their relative order, and the written content ends
with a trailing newline; consequently the file holds at most one `PORT`
line afterwards whenever it started with at most one. -/
theorem update_env_port_invariant (port : Nat) (fs : FsState) :
    ((updateEnvPort port fs).1 = false → (updateEnvPort port fs).2.file = fs.file) ∧
    ((updateEnvPort port fs).1 = true →
      ∃ ls', (updateEnvPort port fs).2.file = some ls' ∧
        firstPortLine ls' = some (portAssignment port) ∧
        countPortLines ls' = max 1 (countPortLines (fs.file.getD [])) ∧
        nonPortLines ls' = nonPortLines (fs.file.getD []) ∧
        (renderFile ls').getLast? = some '\n') ∧
    (countPortLines (fs.file.getD []) ≤ 1 →
      countPortLines ((updateEnvPort port fs).2.file.getD []) ≤ 1) := by
  obtain ⟨hdir, hfalse, htrue⟩ := updateEnvPort_spec port fs
  refine ⟨fun h => (hfalse h).1, fun h => ?_, fun hle => ?_⟩
  · obtain ⟨ls', h1, h2, h3, h4⟩ := htrue h
    refine ⟨ls', h1, h2, h3, h4, ?_⟩
    rw [renderFile]
    exact List.getLast?_concat _
  · cases hb : (updateEnvPort port fs).1 with
    | false => rw [(hfalse hb).1]; exact hle
    | true =>
      obtain ⟨ls', h1, h3, h4, _⟩ := htrue hb
      rw [h1]
      simp only [Option.getD_some]
      rw [h4]
      omega

/-- Counterexample to C1 as stated: a file with two `PORT` lines and a
trailing blank line still has two `PORT` lines after the update (only the
first match is rewritten), and the written content ends with two newlines. -/
theorem update_env_port_invariant_counterexample :
    updateEnvPort 2000 ⟨some ["PORT=1000".data, "PORT=3000".data, []], true⟩ =
      (true, ⟨some ["PORT=2000".data, "PORT=3000".data, []], true⟩) ∧
    countPortLines ["PORT=2000".data, "PORT=3000".data, []] = 2 ∧
    renderFile ["PORT=2000".data, "PORT=3000".data, []] = "PORT=2000\nPORT=3000\n\n".data :=
  ⟨by decide, by decide, by decide⟩

/-- Witness for `update_env_port_invariant`: appending to a file with no
`PORT` entry. -/
theorem update_env_port_invariant_witness :
    (updateEnvPort 5 ⟨some ["A=1".data], true⟩).1 = true ∧
    (∃ ls', (updateEnvPort 5 ⟨some ["A=1".data], true⟩).2.file = some ls' ∧
      firstPortLine ls' = some (portAssignment 5) ∧
      countPortLines ls' = max 1 (countPortLines ["A=1".data]) ∧
      nonPortLines ls' = nonPortLines ["A=1".data] ∧
      (renderFile ls').getLast? = some '\n') :=
  ⟨by decide, (update_env_port_invariant 5 ⟨some ["A=1".data], true⟩).2.1 (by decide)⟩

/-- C5 (amended): the second of two consecutive calls with the same port
always returns false and leaves the filesystem state unchanged; the first
call returns false exactly when the file's first `PORT` line already strips
to the target assignment (so it returns true only otherwise). -/
theorem update_env_port_idempotent (port : Nat) (fs : FsState) :
    (updateEnvPort port (updateEnvPort port fs).2).1 = false ∧
    (updateEnvPort port (updateEnvPort port fs).2).2 = (updateEnvPort port fs).2 ∧
    ((updateEnvPort port fs).1 = false ↔
      ∃ l, firstPortLine (fs.file.getD []) = some l ∧ pyStrip l = portAssignment port) := by
  obtain ⟨hdir, hfalse, htrue⟩ := updateEnvPort_spec port fs
  have hkey : ∃ l, firstPortLine ((updateEnvPort port fs).2.file.getD []) = some l ∧
      pyStrip l = portAssignment port := by
    cases hb : (updateEnvPort port fs).1 with
    | false =>
      obtain ⟨hfile, l, hl, hs⟩ := hfalse hb
      exact ⟨l, by rw [hfile]; exact hl, hs⟩
    | true =>
      obtain ⟨ls', h1, h2, _, _⟩ := htrue hb
      refine ⟨portAssignment port, ?_, pyStrip_portAssignment port⟩
      rw [h1]
      simpa using h2
  have h2false : (updateEnvPort port (updateEnvPort port fs).2).1 = false :=
    (updateEnvPort_false_iff port _).mpr hkey
  have hstate := updateEnvPort_false_state port _ h2false
  refine ⟨h2false, ?_, updateEnvPort_false_iff port fs⟩
  rw [hstate]
  cases hq : (updateEnvPort port fs).2 with
  | mk f d =>
    have hd : d = true := by rw [hq] at hdir; exact hdir
    simp [hd]

/-- Counterexample to C5 as stated: on a file whose `PORT` line already equals
the target, the FIRST call already returns false, not true. -/
theorem update_env_port_first_call_counterexample :
    (updateEnvPort 2000 ⟨some (splitNl "PORT=2000\n".data), true⟩).1 = false := by decide

/-- Witness for `update_env_port_idempotent`. -/
theorem update_env_port_idempotent_witness :
    (updateEnvPort 7 (updateEnvPort 7 ⟨none, false⟩).2).1 = false :=
  (update_env_port_idempotent 7 ⟨none, false⟩).1

/-- C7: on a file with content `FOO=bar\nPORT=1000\n`, `update_env_port(2000)`
rewrites it to exactly `FOO=bar\nPORT=2000\n` — the unrelated `FOO` line
unchanged and in place — and returns true. -/
theorem update_env_port_rewrite_example :
    updateEnvPort 2000 ⟨some (splitNl "FOO=bar\nPORT=1000\n".data), true⟩ =
      (true, ⟨some ["FOO=bar".data, "PORT=2000".data], true⟩) ∧
    renderFile ["FOO=bar".data, "PORT=2000".data] = "FOO=bar\nPORT=2000\n".data :=
  ⟨by decide, by decide⟩

/-- C8: on a nonexistent file with a missing parent directory,
`update_env_port(3000)` creates the parent directory and the file, whose
content is exactly `PORT=3000\n`, and returns true. -/
theorem update_env_port_create_file :
    updateEnvPort 3000 ⟨none, false⟩ = (true, ⟨some ["PORT=3000".data], true⟩) ∧
    renderFile ["PORT=3000".data] = "PORT=3000\n".data :=
  ⟨by decide, by decide⟩

/-- C10: change detection is purely textual on the whitespace-stripped whole
line: whenever the file's first `PORT` line strips to exactly the
assignment, the call returns false and writes nothing; but the same numeric
port spelled differently (`PORT = 2000`) is rewritten to the canonical
`PORT=2000` and the call returns true. -/
theorem update_env_port_textual_change_detection :
    (∀ (port : Nat) (fs : FsState) l, firstPortLine (fs.file.getD []) = some l →
      pyStrip l = portAssignment port →
      updateEnvPort port fs = (false, ⟨fs.file, true⟩)) ∧
    updateEnvPort 2000 ⟨some (splitNl "PORT = 2000\n".data), true⟩ =
      (true, ⟨some ["PORT=2000".data], true⟩) := by
  constructor
  · intro port fs l h1 h2
    have hfalse : (updateEnvPort port fs).1 = false :=
      (updateEnvPort_false_iff port fs).mpr ⟨l, h1, h2⟩
    have hstate := updateEnvPort_false_state port fs hfalse
    rcases hu : updateEnvPort port fs with ⟨a, b⟩
    rw [hu] at hfalse hstate
    have ha : a = false := hfalse
    have hb : b = ⟨fs.file, true⟩ := hstate
    rw [ha, hb]
  · decide

/-- Witness for `update_env_port_textual_change_detection`: whitespace around
the whole line is tolerated — the call returns false without writing. -/
theorem update_env_port_textual_change_detection_witness :
    updateEnvPort 2000 ⟨some ["  PORT=2000 ".data], true⟩ =
      (false, ⟨some ["  PORT=2000 ".data], true⟩) :=
  update_env_port_textual_change_detection.1 2000 ⟨some ["  PORT=2000 ".data], true⟩
    "  PORT=2000 ".data (by decide) (by decide)

end PortUtils
